import Mathlib

/-
Shallow embedding of the Exonum configuration service transaction logic
(src/exonum/src/runtime/configuration/transactions.rs).

The configuration service lets validators propose a new blockchain
configuration, vote for or against it, and — once enough affirmative votes
accumulate — schedule it for activation.  The definitions below mirror the
Rust source function by function.  Supporting types that live outside the
provided sources (the storage schema, `StoredConfiguration`,
`State::byzantine_majority_count`, `CoreSchema::commit_configuration`) are
modelled from the specification; each such definition says so in its doc
comment.
-/

/-- Content hashes are modelled as natural numbers. -/
abbrev Hash := Nat

/-- Public keys are modelled as natural numbers. -/
abbrev PublicKey := Nat

/-- Modelled from the spec: a validator identity; only the service key is
consulted by the configuration service (`k.service_key` in the source). -/
structure ValidatorKeys where
  service_key : PublicKey
deriving DecidableEq, Repr

/-- Modelled from the spec: a configuration — validator set, activation
height (`actual_from`), hash of the superseded configuration
(`previous_cfg_hash`), and the per-service settings map, of which only the
configuration service entry (an optional `majority_count`) is ever read. -/
structure StoredConfiguration where
  previous_cfg_hash : Hash
  actual_from : Nat
  validator_keys : List ValidatorKeys
  services_majority_count : Option Nat
deriving DecidableEq, Repr

/-- Configuration-service settings (`ConfigurationServiceConfig`): an
optional majority-count override. -/
structure ConfigurationServiceConfig where
  majority_count : Option Nat
deriving DecidableEq, Repr

/-- Modelled from the spec: the textual payload of a `Propose` transaction,
which either deserializes into a well-formed configuration or fails to
parse (the parse error is abstracted as a number). -/
inductive CfgText where
  | garbage (raw : Nat)
  | wellFormed (c : StoredConfiguration)
deriving DecidableEq, Repr

deriving instance DecidableEq for Except

/-- Modelled from the spec: `StoredConfiguration::try_deserialize`. -/
def tryDeserialize : CfgText → Except Nat StoredConfiguration
  | .garbage raw => .error raw
  | .wellFormed c => .ok c

/-- Injective encoding of a list of naturals, used to build content hashes. -/
def encodeList : List Nat → Nat
  | [] => 0
  | x :: xs => Nat.pair x (encodeList xs) + 1

/-- Encoding of an optional natural. -/
def encodeOpt : Option Nat → Nat
  | none => 0
  | some n => n + 1

/-- Modelled from the spec: the deterministic, collision-free content hash
of a configuration (`CryptoHash::hash` / `StoredConfiguration::hash`). -/
def cfgHash (c : StoredConfiguration) : Hash :=
  Nat.pair c.previous_cfg_hash
    (Nat.pair c.actual_from
      (Nat.pair (encodeList (c.validator_keys.map (fun k => k.service_key)))
        (encodeOpt c.services_majority_count)))

/-- A recorded voting decision: affirmative (`Yea`) or negative (`Nay`),
carrying the hash of the originating transaction. -/
inductive VotingDecision where
  | Yea (txHash : Hash)
  | Nay (txHash : Hash)
deriving DecidableEq, Repr

/-- A vote slot: `none` when the validator has not voted (`MaybeVote`). -/
abbrev MaybeVote := Option VotingDecision

/-- Whether a stored vote slot is an affirmative vote (`MaybeVote::is_consent`). -/
def isConsent : MaybeVote → Bool
  | some (.Yea _) => true
  | _ => false

/-- Encoding of a vote slot as a natural number. -/
def encodeVote : MaybeVote → Nat
  | none => 0
  | some (.Yea h) => 2 * h + 1
  | some (.Nay h) => 2 * h + 2

/-- Modelled from the spec: the merkle root maintained over the ordered
vote-slot sequence (`ProofListIndex::merkle_root`), abstracted as an
injective digest of the slot list. -/
def merkleRoot (l : List MaybeVote) : Hash :=
  encodeList (l.map encodeVote)

/-- The `Propose` transaction: a configuration payload. -/
structure Propose where
  cfg : CfgText
deriving DecidableEq, Repr

/-- The `Vote` transaction: the hash of the configuration voted for. -/
structure Vote where
  cfg_hash : Hash
deriving DecidableEq, Repr

/-- The `VoteAgainst` transaction: the hash of the configuration voted against. -/
structure VoteAgainst where
  cfg_hash : Hash
deriving DecidableEq, Repr

/-- Modelled from the spec: `ProposeData`, the stored proposal record —
the original propose transaction, the vote ledger merkle root, and the
validator count at submission time. -/
structure ProposeData where
  tx_propose : Propose
  votes_history_hash : Hash
  num_validators : Nat
deriving DecidableEq, Repr

/-- Service error kinds (`errors::Error`), with the diagnostic payloads the
source attaches to each. -/
inductive ServiceError where
  | AlreadyScheduled (following : StoredConfiguration)
  | UnknownSender
  | InvalidConfig (parseError : Nat)
  | InvalidConfigRef (actual : StoredConfiguration)
  | ActivationInPast (height : Nat)
  | InvalidMajorityCount (min max proposed : Nat)
  | AlreadyProposed (existing : Propose)
  | UnknownConfigRef (h : Hash)
  | AlreadyVoted
deriving DecidableEq, Repr

/-- Modelled from the spec: the core schema state — the configuration
registry (configs by hash, the active configuration, an optional scheduled
"following" configuration) and the height of the last committed block. -/
structure CoreState where
  configs : List (Hash × StoredConfiguration)
  actual : StoredConfiguration
  following : Option StoredConfiguration
  height : Nat
deriving DecidableEq, Repr

/-- Modelled from the spec: the configuration-service schema — proposal
records keyed by configuration hash, vote ledgers keyed by configuration
hash (absent means empty), and the append-only ordinal list of proposed
configuration hashes. -/
structure ServiceState where
  propose_data : List (Hash × ProposeData)
  votes : List (Hash × List MaybeVote)
  config_hash_ordinal : List Hash
deriving DecidableEq, Repr

/-- The full chain state visible to the configuration service. -/
structure BCState where
  core : CoreState
  service : ServiceState
deriving DecidableEq, Repr

/-- Lookup in an association list keyed by hash. -/
def alGet {α : Type} (l : List (Hash × α)) (h : Hash) : Option α :=
  (l.find? (fun p => p.1 == h)).map (fun p => p.2)

/-- Insert or replace a binding in an association list keyed by hash. -/
def alPut {α : Type} (l : List (Hash × α)) (h : Hash) (v : α) : List (Hash × α) :=
  match l with
  | [] => [(h, v)]
  | p :: rest => if p.1 == h then (h, v) :: rest else p :: alPut rest h v

/-- Lookup in the configuration registry (`CoreSchema::configs().get`). -/
def configsGet (s : BCState) (h : Hash) : Option StoredConfiguration :=
  alGet s.core.configs h

/-- The vote ledger for a configuration hash
(`Schema::votes_by_config_hash`); an absent ledger reads as empty. -/
def votesByConfigHash (s : BCState) (h : Hash) : List MaybeVote :=
  (alGet s.service.votes h).getD []

/-- The stored propose transaction for a configuration hash
(`Schema::propose`), read off the proposal record. -/
def proposeOf (s : BCState) (h : Hash) : Option Propose :=
  (alGet s.service.propose_data h).map (fun pd => pd.tx_propose)

/-- Modelled from the spec: `State::byzantine_majority_count`, the smallest
integer strictly greater than two thirds of the validator count. -/
def byzantine_majority_count (total : Nat) : Nat :=
  total * 2 / 3 + 1

/-- Extraction of the configuration-service settings from a configuration
(`get_service_config`). -/
def get_service_config (c : StoredConfiguration) : ConfigurationServiceConfig :=
  ⟨c.services_majority_count⟩

/-- Index of the author among the validators of the currently active
configuration (`validator_index`). -/
def validator_index (s : BCState) (key : PublicKey) : Option Nat :=
  s.core.actual.validator_keys.findIdx? (fun k => k.service_key == key)

/-- Whether the affirmative votes for a configuration hash reach the
majority threshold of the currently active configuration
(`enough_votes_to_commit`). -/
def enough_votes_to_commit (s : BCState) (cfg_hash : Hash) : Bool :=
  let votes := votesByConfigHash s cfg_hash
  let votes_count := (votes.filter isConsent).length
  let config := get_service_config s.core.actual
  let majority_count :=
    match config.majority_count with
    | some m => m
    | none => byzantine_majority_count s.core.actual.validator_keys.length
  votes_count ≥ majority_count

/-- Structural validation of a candidate configuration against the current
state (`Propose::check_config_candidate`): predecessor hash, activation
height, optional majority override bound. -/
def check_config_candidate (candidate : StoredConfiguration) (s : BCState) :
    Except ServiceError Unit :=
  if candidate.previous_cfg_hash ≠ cfgHash s.core.actual then
    .error (.InvalidConfigRef s.core.actual)
  else
    let current_height := s.core.height + 1
    if candidate.actual_from ≤ current_height then
      .error (.ActivationInPast current_height)
    else
      match (get_service_config candidate).majority_count with
      | some proposed =>
        let validators_num := candidate.validator_keys.length
        let min_votes_count := byzantine_majority_count validators_num
        if proposed < min_votes_count ∨ proposed > validators_num then
          .error (.InvalidMajorityCount min_votes_count validators_num proposed)
        else
          .ok ()
      | none => .ok ()

/-- Context-dependent checks of a propose transaction against the snapshot
(`Propose::precheck`); on success returns the parsed configuration and its
hash. -/
def Propose.precheck (p : Propose) (s : BCState) (author : PublicKey) :
    Except ServiceError (StoredConfiguration × Hash) :=
  match s.core.following with
  | some following => .error (.AlreadyScheduled following)
  | none =>
    if (validator_index s author).isNone then
      .error .UnknownSender
    else
      match tryDeserialize p.cfg with
      | .error e => .error (.InvalidConfig e)
      | .ok config_candidate =>
        match check_config_candidate config_candidate s with
        | .error e => .error e
        | .ok _ =>
          let cfg_hash := cfgHash config_candidate
          match proposeOf s cfg_hash with
          | some old_propose => .error (.AlreadyProposed old_propose)
          | none => .ok (config_candidate, cfg_hash)

/-- Saving a validated proposal to the service schema (`Propose::save`):
the vote ledger receives one empty slot per validator of the predecessor
configuration, the proposal record stores the ledger merkle root and the
validator count, and the configuration hash is appended to the ordinal
index.  A failed registry lookup is the source `unwrap` panic. -/
def Propose.save (p : Propose) (s : BCState) (cfg : StoredConfiguration)
    (cfg_hash : Hash) : Except String BCState :=
  match configsGet s cfg.previous_cfg_hash with
  | none => .error ("no stored predecessor configuration")
  | some prev_cfg =>
    let num_validators := prev_cfg.validator_keys.length
    let votes_table := votesByConfigHash s cfg_hash ++
      List.replicate num_validators (none : MaybeVote)
    let propose_data : ProposeData := ⟨p, merkleRoot votes_table, num_validators⟩
    .ok { s with service :=
      { propose_data := alPut s.service.propose_data cfg_hash propose_data
        votes := alPut s.service.votes cfg_hash votes_table
        config_hash_ordinal := s.service.config_hash_ordinal ++ [cfg_hash] } }

/-- Result of executing a transaction: success with the mutated fork, a
service error leaving the fork as the handler left it, or a panic. -/
inductive ExecResult where
  | ok (s : BCState)
  | err (e : ServiceError) (s : BCState)
  | panic (msg : String)
deriving DecidableEq, Repr

/-- Result of a voting precheck: the parsed configuration, a service
error, or a panic (the source `expect`/`unwrap` calls). -/
inductive CheckResult where
  | ok (cfg : StoredConfiguration)
  | err (e : ServiceError)
  | panic (msg : String)
deriving DecidableEq, Repr

/-- Shared context of a `Vote`/`VoteAgainst` transaction
(`VotingContext`). -/
structure VotingContext where
  decision : VotingDecision
  author : PublicKey
  cfg_hash : Hash
deriving DecidableEq, Repr

/-- Context-dependent checks of a vote transaction against the snapshot
(`VotingContext::precheck`).  The vote-slot lookup uses the author index in
the currently active validator set and panics (`expect`) when that index
falls outside the proposal ledger; the stored payload is re-parsed with
`unwrap` and the candidate re-validated with `check_config_candidate`. -/
def VotingContext.precheck (v : VotingContext) (s : BCState) : CheckResult :=
  match s.core.following with
  | some following => .err (.AlreadyScheduled following)
  | none =>
    match proposeOf s v.cfg_hash with
    | none => .err (.UnknownConfigRef v.cfg_hash)
    | some propose =>
      match validator_index s v.author with
      | some validator_id =>
        match (votesByConfigHash s v.cfg_hash)[validator_id]? with
        | none => .panic ("Cant get vote for precheck")
        | some vote =>
          if vote.isSome then
            .err .AlreadyVoted
          else
            match tryDeserialize propose.cfg with
            | .error _ => .panic ("stored propose does not deserialize")
            | .ok parsed =>
              match check_config_candidate parsed s with
              | .error e => .err e
              | .ok _ => .ok parsed
      | none => .err .UnknownSender

/-- Recording a vote (`VotingContext::save`): the author slot in the vote
ledger — located through the predecessor configuration stored in the
registry — is overwritten with the decision, and the proposal record is
rewritten with the recomputed merkle root.  Failed lookups are the source
`unwrap` panics; an out-of-range slot write is the backing proof-list
panic. -/
def VotingContext.save (v : VotingContext) (s : BCState) : Except String BCState :=
  match alGet s.service.propose_data v.cfg_hash with
  | none => .error ("no proposal record for vote")
  | some propose_data =>
    match tryDeserialize propose_data.tx_propose.cfg with
    | .error _ => .error ("stored propose does not deserialize")
    | .ok parsed =>
      match configsGet s parsed.previous_cfg_hash with
      | none => .error ("no stored predecessor configuration")
      | some prev_cfg =>
        match prev_cfg.validator_keys.findIdx? (fun k => k.service_key == v.author) with
        | none => .error ("author not in predecessor validator set")
        | some validator_id =>
          let votes := votesByConfigHash s v.cfg_hash
          if validator_id < votes.length then
            let votes2 := votes.set validator_id (some v.decision)
            let pd2 : ProposeData :=
              ⟨propose_data.tx_propose, merkleRoot votes2, propose_data.num_validators⟩
            .ok { s with service :=
              { propose_data := alPut s.service.propose_data v.cfg_hash pd2
                votes := alPut s.service.votes v.cfg_hash votes2
                config_hash_ordinal := s.service.config_hash_ordinal } }
          else
            .error ("vote slot out of range")

/-- Modelled from the spec: `CoreSchema::commit_configuration`, the sole
scheduling operation of the configuration registry — records the validated
candidate as the following (scheduled) configuration. -/
def commit_configuration (s : BCState) (cfg : StoredConfiguration) : BCState :=
  { s with core := { s.core with following := some cfg } }

/-- `Transaction::execute` for `Propose`: precheck, then save; a
precondition failure returns the error with the fork untouched. -/
def Propose.execute (p : Propose) (author : PublicKey) (s : BCState) : ExecResult :=
  match p.precheck s author with
  | .error e => .err e s
  | .ok (cfg, cfg_hash) =>
    match p.save s cfg cfg_hash with
    | .error m => .panic m
    | .ok s1 => .ok s1

/-- `Transaction::execute` for `Vote`: precheck, save the affirmative
decision, then schedule the parsed configuration when the affirmative
votes reach the majority threshold. -/
def Vote.execute (v : Vote) (author : PublicKey) (txHash : Hash) (s : BCState) :
    ExecResult :=
  let ctx : VotingContext := ⟨.Yea txHash, author, v.cfg_hash⟩
  match ctx.precheck s with
  | .err e => .err e s
  | .panic m => .panic m
  | .ok parsed =>
    match ctx.save s with
    | .error m => .panic m
    | .ok s1 =>
      if enough_votes_to_commit s1 v.cfg_hash then
        .ok (commit_configuration s1 parsed)
      else
        .ok s1

/-- `Transaction::execute` for `VoteAgainst`: precheck, then save the
negative decision; no threshold check and no scheduling. -/
def VoteAgainst.execute (v : VoteAgainst) (author : PublicKey) (txHash : Hash)
    (s : BCState) : ExecResult :=
  let ctx : VotingContext := ⟨.Nay txHash, author, v.cfg_hash⟩
  match ctx.precheck s with
  | .err e => .err e s
  | .panic m => .panic m
  | .ok _parsed =>
    match ctx.save s with
    | .error m => .panic m
    | .ok s1 => .ok s1

/-- The closed set of configuration-service transactions
(`ConfigurationTransactions`). -/
inductive ConfigurationTransactions where
  | propose (p : Propose)
  | vote (v : Vote)
  | voteAgainst (v : VoteAgainst)
deriving DecidableEq, Repr

/-- Dispatch of a configuration-service transaction to its handler, given
the author key and the transaction hash. -/
def executeTx : ConfigurationTransactions → PublicKey → Hash → BCState → ExecResult
  | .propose p, author, _, s => p.execute author s
  | .vote v, author, txHash, s => v.execute author txHash s
  | .voteAgainst v, author, txHash, s => v.execute author txHash s

/-! Helper lemmas about the association-list store. -/

theorem alGet_alPut_self {α : Type} (l : List (Hash × α)) (h : Hash) (v : α) :
    alGet (alPut l h v) h = some v := by
  induction l with
  | nil => simp [alGet, alPut, List.find?_cons]
  | cons p rest ih =>
    by_cases hp : p.1 = h
    · simp [alPut, alGet, List.find?_cons, hp]
    · have hb : (p.1 == h) = false := beq_eq_false_iff_ne.mpr hp
      simp only [alPut, hb, Bool.false_eq_true, if_false]
      simpa [alGet, List.find?_cons, hb] using ih

theorem alGet_alPut_ne {α : Type} (l : List (Hash × α)) (h h2 : Hash) (v : α)
    (hne : h2 ≠ h) : alGet (alPut l h v) h2 = alGet l h2 := by
  have hb2 : (h == h2) = false := beq_eq_false_iff_ne.mpr (fun hc => hne hc.symm)
  induction l with
  | nil => simp [alGet, alPut, List.find?_cons, hb2]
  | cons p rest ih =>
    by_cases hp : p.1 = h
    · have hb : (p.1 == h) = true := beq_iff_eq.mpr hp
      have hbc : (p.1 == h2) = false := by
        rw [hp]; exact hb2
      simp [alPut, alGet, List.find?_cons, hb, hb2, hbc]
    · have hb : (p.1 == h) = false := beq_eq_false_iff_ne.mpr hp
      simp only [alPut, hb, Bool.false_eq_true, if_false]
      by_cases hc : p.1 = h2
      · have hbc : (p.1 == h2) = true := beq_iff_eq.mpr hc
        simp [alGet, List.find?_cons, hbc]
      · have hbc : (p.1 == h2) = false := beq_eq_false_iff_ne.mpr hc
        simpa [alGet, List.find?_cons, hbc] using ih

/-! Elimination lemmas for the individual handler stages. -/

theorem check_config_candidate_ok_prev {candidate : StoredConfiguration} {s : BCState}
    (h : check_config_candidate candidate s = .ok ()) :
    candidate.previous_cfg_hash = cfgHash s.core.actual := by
  unfold check_config_candidate at h
  by_cases hp : candidate.previous_cfg_hash = cfgHash s.core.actual
  · exact hp
  · simp [hp] at h

theorem propose_precheck_ok_elim {p : Propose} {s : BCState} {a : PublicKey}
    {cfg : StoredConfiguration} {ch : Hash}
    (h : p.precheck s a = .ok (cfg, ch)) :
    s.core.following = none ∧ (validator_index s a).isNone = false ∧
      tryDeserialize p.cfg = .ok cfg ∧ check_config_candidate cfg s = .ok () ∧
      ch = cfgHash cfg ∧ proposeOf s (cfgHash cfg) = none := by
  unfold Propose.precheck at h
  cases hf : s.core.following with
  | some f => rw [hf] at h; simp at h
  | none =>
    rw [hf] at h
    cases hv : (validator_index s a).isNone with
    | true => rw [hv] at h; simp at h
    | false =>
      rw [hv] at h
      simp only [Bool.false_eq_true, if_false] at h
      cases hd : tryDeserialize p.cfg with
      | error e => rw [hd] at h; simp at h
      | ok c =>
        rw [hd] at h
        simp only [] at h
        cases hc : check_config_candidate c s with
        | error e => rw [hc] at h; simp at h
        | ok u =>
          rw [hc] at h
          simp only [] at h
          cases hpr : proposeOf s (cfgHash c) with
          | some old => rw [hpr] at h; simp at h
          | none =>
            rw [hpr] at h
            simp only [Except.ok.injEq, Prod.mk.injEq] at h
            obtain ⟨hcfg, hch⟩ := h
            subst hcfg
            cases u
            exact ⟨rfl, rfl, rfl, hc, hch.symm, hpr⟩

theorem propose_save_ok_elim {p : Propose} {s : BCState} {cfg : StoredConfiguration}
    {ch : Hash} {s2 : BCState} (h : p.save s cfg ch = .ok s2) :
    ∃ prev_cfg, configsGet s cfg.previous_cfg_hash = some prev_cfg ∧
      s2 = ⟨s.core,
        ⟨alPut s.service.propose_data ch
            ⟨p, merkleRoot (votesByConfigHash s ch ++
              List.replicate prev_cfg.validator_keys.length none),
              prev_cfg.validator_keys.length⟩,
          alPut s.service.votes ch
            (votesByConfigHash s ch ++ List.replicate prev_cfg.validator_keys.length none),
          s.service.config_hash_ordinal ++ [ch]⟩⟩ := by
  unfold Propose.save at h
  cases hg : configsGet s cfg.previous_cfg_hash with
  | none => rw [hg] at h; simp at h
  | some prev_cfg =>
    rw [hg] at h
    simp only [Except.ok.injEq] at h
    exact ⟨prev_cfg, rfl, h.symm⟩

theorem voting_precheck_ok_elim {v : VotingContext} {s : BCState}
    {parsed : StoredConfiguration} (h : v.precheck s = .ok parsed) :
    s.core.following = none ∧
    ∃ propose i slot, proposeOf s v.cfg_hash = some propose ∧
      validator_index s v.author = some i ∧
      (votesByConfigHash s v.cfg_hash)[i]? = some slot ∧ slot.isSome = false ∧
      tryDeserialize propose.cfg = .ok parsed ∧
      check_config_candidate parsed s = .ok () := by
  unfold VotingContext.precheck at h
  cases hf : s.core.following with
  | some f => rw [hf] at h; simp at h
  | none =>
    rw [hf] at h
    cases hpr : proposeOf s v.cfg_hash with
    | none => rw [hpr] at h; simp at h
    | some propose =>
      rw [hpr] at h
      simp only [] at h
      cases hv : validator_index s v.author with
      | none => rw [hv] at h; simp at h
      | some i =>
        rw [hv] at h
        simp only [] at h
        cases hs : (votesByConfigHash s v.cfg_hash)[i]? with
        | none => rw [hs] at h; simp at h
        | some slot =>
          rw [hs] at h
          simp only [] at h
          cases hso : slot.isSome with
          | true => rw [hso] at h; simp at h
          | false =>
            rw [hso] at h
            simp only [Bool.false_eq_true, if_false] at h
            cases hd : tryDeserialize propose.cfg with
            | error e2 => rw [hd] at h; simp at h
            | ok parsed2 =>
              rw [hd] at h
              simp only [] at h
              cases hc : check_config_candidate parsed2 s with
              | error e2 => rw [hc] at h; simp at h
              | ok u =>
                rw [hc] at h
                simp only [CheckResult.ok.injEq] at h
                subst h
                cases u
                exact ⟨rfl, propose, i, slot, rfl, rfl, hs, hso, hd, hc⟩

theorem voting_save_ok_elim {v : VotingContext} {s : BCState} {s2 : BCState}
    (h : v.save s = .ok s2) :
    ∃ pd parsed prev_cfg i,
      alGet s.service.propose_data v.cfg_hash = some pd ∧
      tryDeserialize pd.tx_propose.cfg = .ok parsed ∧
      configsGet s parsed.previous_cfg_hash = some prev_cfg ∧
      prev_cfg.validator_keys.findIdx? (fun k => k.service_key == v.author) = some i ∧
      i < (votesByConfigHash s v.cfg_hash).length ∧
      s2 = ⟨s.core,
        ⟨alPut s.service.propose_data v.cfg_hash
            ⟨pd.tx_propose,
              merkleRoot ((votesByConfigHash s v.cfg_hash).set i (some v.decision)),
              pd.num_validators⟩,
          alPut s.service.votes v.cfg_hash
            ((votesByConfigHash s v.cfg_hash).set i (some v.decision)),
          s.service.config_hash_ordinal⟩⟩ := by
  unfold VotingContext.save at h
  cases hg : alGet s.service.propose_data v.cfg_hash with
  | none => rw [hg] at h; simp at h
  | some pd =>
    rw [hg] at h
    simp only [] at h
    cases hd : tryDeserialize pd.tx_propose.cfg with
    | error e => rw [hd] at h; simp at h
    | ok parsed =>
      rw [hd] at h
      simp only [] at h
      cases hc : configsGet s parsed.previous_cfg_hash with
      | none => rw [hc] at h; simp at h
      | some prev_cfg =>
        rw [hc] at h
        simp only [] at h
        cases hi : prev_cfg.validator_keys.findIdx? (fun k => k.service_key == v.author) with
        | none => rw [hi] at h; simp at h
        | some i =>
          rw [hi] at h
          simp only [] at h
          cases hlt : decide (i < (votesByConfigHash s v.cfg_hash).length) with
          | false =>
            have : ¬ i < (votesByConfigHash s v.cfg_hash).length := of_decide_eq_false hlt
            rw [if_neg this] at h
            simp at h
          | true =>
            have hlt2 : i < (votesByConfigHash s v.cfg_hash).length := of_decide_eq_true hlt
            rw [if_pos hlt2] at h
            simp only [Except.ok.injEq] at h
            exact ⟨pd, parsed, prev_cfg, i, rfl, hd, hc, hi, hlt2, h.symm⟩

theorem propose_execute_err_eq {p : Propose} {a : Nat} {s : BCState} {e : ServiceError}
    {s2 : BCState} (h : p.execute a s = .err e s2) : s2 = s := by
  unfold Propose.execute at h
  cases hpc : p.precheck s a with
  | error e2 =>
    rw [hpc] at h
    simp only [ExecResult.err.injEq] at h
    exact h.2.symm
  | ok pair =>
    rw [hpc] at h
    simp only [] at h
    cases hs : p.save s pair.1 pair.2 with
    | error m => rw [hs] at h; simp at h
    | ok s1 => rw [hs] at h; simp at h

theorem vote_execute_err_eq {v : Vote} {a th : Nat} {s : BCState} {e : ServiceError}
    {s2 : BCState} (h : v.execute a th s = .err e s2) : s2 = s := by
  unfold Vote.execute at h
  simp only [] at h
  cases hpc : VotingContext.precheck ⟨.Yea th, a, v.cfg_hash⟩ s with
  | err e2 =>
    rw [hpc] at h
    simp only [ExecResult.err.injEq] at h
    exact h.2.symm
  | panic m => rw [hpc] at h; simp at h
  | ok parsed =>
    rw [hpc] at h
    simp only [] at h
    cases hs : VotingContext.save ⟨.Yea th, a, v.cfg_hash⟩ s with
    | error m => rw [hs] at h; simp at h
    | ok s1 =>
      rw [hs] at h
      simp only [] at h
      cases he : enough_votes_to_commit s1 v.cfg_hash with
      | true => rw [he] at h; simp at h
      | false => rw [he] at h; simp at h

theorem voteAgainst_execute_err_eq {v : VoteAgainst} {a th : Nat} {s : BCState}
    {e : ServiceError} {s2 : BCState} (h : v.execute a th s = .err e s2) : s2 = s := by
  unfold VoteAgainst.execute at h
  simp only [] at h
  cases hpc : VotingContext.precheck ⟨.Nay th, a, v.cfg_hash⟩ s with
  | err e2 =>
    rw [hpc] at h
    simp only [ExecResult.err.injEq] at h
    exact h.2.symm
  | panic m => rw [hpc] at h; simp at h
  | ok parsed =>
    rw [hpc] at h
    simp only [] at h
    cases hs : VotingContext.save ⟨.Nay th, a, v.cfg_hash⟩ s with
    | error m => rw [hs] at h; simp at h
    | ok s1 => rw [hs] at h; simp at h

theorem executeTx_err_eq {tx : ConfigurationTransactions} {a th : Nat} {s : BCState}
    {e : ServiceError} {s2 : BCState} (h : executeTx tx a th s = .err e s2) : s2 = s := by
  cases tx with
  | propose p => exact propose_execute_err_eq h
  | vote v => exact vote_execute_err_eq h
  | voteAgainst v => exact voteAgainst_execute_err_eq h

/-! Concrete states used by witness and counterexample theorems. -/

/-- A four-validator configuration, active in the base fixtures. -/
def cfgA : StoredConfiguration := ⟨0, 0, [⟨1⟩, ⟨2⟩, ⟨3⟩, ⟨4⟩], none⟩

/-- A candidate configuration superseding `cfgA`. -/
def cfgB : StoredConfiguration := ⟨cfgHash cfgA, 100, [⟨1⟩, ⟨2⟩, ⟨3⟩, ⟨4⟩], none⟩

/-- The propose transaction carrying `cfgB`. -/
def pB : Propose := ⟨.wellFormed cfgB⟩

/-- Base state: `cfgA` active, nothing proposed, nothing scheduled. -/
def stateA : BCState := ⟨⟨[(cfgHash cfgA, cfgA)], cfgA, none, 5⟩, ⟨[], [], []⟩⟩

/-- State after `pB` was successfully proposed on `stateA`. -/
def stateB : BCState :=
  ⟨⟨[(cfgHash cfgA, cfgA)], cfgA, none, 5⟩,
   ⟨[(cfgHash cfgB, ⟨pB, merkleRoot (List.replicate 4 none), 4⟩)],
    [(cfgHash cfgB, List.replicate 4 none)], [cfgHash cfgB]⟩⟩

/-- Vote ledger of the `cfgB` proposal with two affirmative votes. -/
def votesV2 : List MaybeVote := [some (.Yea 11), some (.Yea 22), none, none]

/-- State of the `cfgB` proposal after two affirmative votes. -/
def stateV2 : BCState :=
  ⟨⟨[(cfgHash cfgA, cfgA)], cfgA, none, 5⟩,
   ⟨[(cfgHash cfgB, ⟨pB, merkleRoot votesV2, 4⟩)],
    [(cfgHash cfgB, votesV2)], [cfgHash cfgB]⟩⟩

/-- Vote ledger of the `cfgB` proposal after a third affirmative vote. -/
def votesV3 : List MaybeVote := [some (.Yea 11), some (.Yea 22), some (.Yea 99), none]

/-- State after the third affirmative vote reached the majority and the
candidate `cfgB` became scheduled. -/
def stateV3 : BCState :=
  ⟨⟨[(cfgHash cfgA, cfgA)], cfgA, some cfgB, 5⟩,
   ⟨[(cfgHash cfgB, ⟨pB, merkleRoot votesV3, 4⟩)],
    [(cfgHash cfgB, votesV3)], [cfgHash cfgB]⟩⟩

/-- A single-validator configuration, active when `cfgT` was proposed. -/
def cfgS : StoredConfiguration := ⟨0, 0, [⟨1⟩], none⟩

/-- A candidate configuration superseding `cfgS`. -/
def cfgT : StoredConfiguration := ⟨cfgHash cfgS, 100, [⟨1⟩], none⟩

/-- The propose transaction carrying `cfgT`. -/
def pT : Propose := ⟨.wellFormed cfgT⟩

/-- A two-validator configuration that is active after the validator set
grew; validator 2 was added after the `cfgT` proposal was submitted. -/
def cfgL : StoredConfiguration := ⟨cfgHash cfgS, 3, [⟨1⟩, ⟨2⟩], none⟩

/-- State holding the one-slot `cfgT` proposal while the active validator
set has grown to two members. -/
def stateGrown : BCState :=
  ⟨⟨[(cfgHash cfgS, cfgS)], cfgL, none, 5⟩,
   ⟨[(cfgHash cfgT, ⟨pT, merkleRoot [none], 1⟩)],
    [(cfgHash cfgT, [none])], [cfgHash cfgT]⟩⟩

/-- A five-validator configuration superseding `cfgA`, used as the new
active configuration in the stale-proposal fixture. -/
def cfgA2 : StoredConfiguration := ⟨cfgHash cfgA, 60, [⟨1⟩, ⟨2⟩, ⟨3⟩, ⟨4⟩, ⟨5⟩], none⟩

/-- State where the `cfgB` proposal is still stored but the active
configuration has moved on to `cfgA2`. -/
def stateStale : BCState :=
  ⟨⟨[(cfgHash cfgA, cfgA), (cfgHash cfgA2, cfgA2)], cfgA2, none, 60⟩, stateB.service⟩

/-- A candidate with a one-member validator set and override 1, proposed
while the four-validator `cfgA` is active. -/
def cfgSmallOverride : StoredConfiguration := ⟨cfgHash cfgA, 100, [⟨1⟩], some 1⟩

/-- A candidate with four validators and override 3. -/
def cfgOverride3 : StoredConfiguration := ⟨cfgHash cfgA, 100, [⟨1⟩, ⟨2⟩, ⟨3⟩, ⟨4⟩], some 3⟩

/-- Variant of stateB with the recorded validator count of the proposal record
tampered to 99; the vote ledgers and the active configuration agree with
`stateB`. -/
def stateBTampered : BCState :=
  ⟨stateB.core,
   ⟨[(cfgHash cfgB, ⟨pB, merkleRoot (List.replicate 4 none), 99⟩)],
    [(cfgHash cfgB, List.replicate 4 none)], [cfgHash cfgB]⟩⟩

/-- Claim C7: for every Propose, Vote, and VoteAgainst transaction and every
state, if execution returns a service error then the fork is completely
unchanged — all precondition checks run before any mutation. -/
theorem c7_error_leaves_fork_unchanged
    (tx : ConfigurationTransactions) (author txHash : Nat) (s : BCState)
    (e : ServiceError) (s2 : BCState)
    (h : executeTx tx author txHash s = .err e s2) : s2 = s :=
  executeTx_err_eq h

/-- Witness for C7: a vote referencing an unknown configuration hash fails
with `UnknownConfigRef` and leaves the state exactly as it was. -/
theorem c7_witness :
    executeTx (.vote ⟨0⟩) 9 0 stateA = .err (.UnknownConfigRef 0) stateA ∧
      stateA = stateA :=
  ⟨by decide,
   c7_error_leaves_fork_unchanged (.vote ⟨0⟩) 9 0 stateA (.UnknownConfigRef 0) stateA
     (by decide)⟩

/-- Claim C2 (as settled): the Majority Policy default is floor(2N/3)+1 — 3 for
N=4 and 1 for N=1 — and an explicit override M passes the propose-time
check if and only if default_majority(N) ≤ M ≤ N, where N is the size of
the validator set of the candidate configuration (not of the configuration
active at proposal time); otherwise the check fails with
InvalidMajorityCount carrying min = default_majority(N), max = N and
proposed = M. -/
theorem c2_majority_policy :
    byzantine_majority_count 4 = 3 ∧ byzantine_majority_count 1 = 1 ∧
    (∀ N, byzantine_majority_count N = 2 * N / 3 + 1) ∧
    (∀ (candidate : StoredConfiguration) (s : BCState) (M : Nat),
      (get_service_config candidate).majority_count = some M →
      candidate.previous_cfg_hash = cfgHash s.core.actual →
      s.core.height + 1 < candidate.actual_from →
      ((check_config_candidate candidate s = .ok () ↔
        byzantine_majority_count candidate.validator_keys.length ≤ M ∧
          M ≤ candidate.validator_keys.length) ∧
       (¬(byzantine_majority_count candidate.validator_keys.length ≤ M ∧
            M ≤ candidate.validator_keys.length) →
        check_config_candidate candidate s =
          .error (.InvalidMajorityCount
            (byzantine_majority_count candidate.validator_keys.length)
            candidate.validator_keys.length M)))) := by
  refine ⟨rfl, rfl, fun N => by rw [byzantine_majority_count, Nat.mul_comm], ?_⟩
  intro candidate s M hM hprev hheight
  have hprev2 : ¬ candidate.previous_cfg_hash ≠ cfgHash s.core.actual := by
    simp [hprev]
  have hh2 : ¬ candidate.actual_from ≤ s.core.height + 1 := by omega
  unfold check_config_candidate
  rw [if_neg hprev2]
  simp only []
  rw [if_neg hh2, hM]
  simp only []
  by_cases hc : M < byzantine_majority_count candidate.validator_keys.length ∨
      M > candidate.validator_keys.length
  · rw [if_pos hc]
    refine ⟨⟨fun habs => by simp at habs, fun hrange => by exfalso; omega⟩, fun _ => rfl⟩
  · rw [if_neg hc]
    refine ⟨⟨fun _ => by constructor <;> omega, fun _ => rfl⟩, ?_⟩
    intro hrange
    exact absurd ⟨by omega, by omega⟩ hrange

/-- Witness for C2: a candidate with four validators and override 3 passes
the propose-time majority check against `stateA`. -/
theorem c2_witness :
    check_config_candidate cfgOverride3 stateA = .ok () :=
  ((c2_majority_policy.2.2.2 cfgOverride3 stateA 3 rfl rfl (by decide)).1).mpr (by decide)

/-- Counterexample for C2 as stated: with the four-validator `cfgA` active
(so N as claimed is 4 and the default minimum is 3), a candidate carrying
its own one-member validator set and override 1 passes the check, even
though 1 is below the default majority for the active set. -/
theorem c2_counterexample :
    stateA.core.actual.validator_keys.length = 4 ∧
    (get_service_config cfgSmallOverride).majority_count = some 1 ∧
    1 < byzantine_majority_count stateA.core.actual.validator_keys.length ∧
    check_config_candidate cfgSmallOverride stateA = .ok () :=
  ⟨rfl, rfl, by decide, by decide⟩

/-- Claim C9: the scheduling threshold tallies the affirmative slots of the
referenced ledger against the configuration active at vote time — its
majority-count override when present, otherwise the byzantine majority of
its validator count — and depends on nothing else: states agreeing on the
active configuration and on the ledger agree on the verdict, whatever the
candidate override or the recorded validator count. -/
theorem c9_threshold_from_active_config :
    (∀ (s : BCState) (h : Hash),
      enough_votes_to_commit s h =
        decide (((votesByConfigHash s h).filter isConsent).length ≥
          match s.core.actual.services_majority_count with
          | some m => m
          | none => byzantine_majority_count s.core.actual.validator_keys.length)) ∧
    (∀ (s t : BCState) (h : Hash),
      s.core.actual = t.core.actual →
      votesByConfigHash s h = votesByConfigHash t h →
      enough_votes_to_commit s h = enough_votes_to_commit t h) := by
  constructor
  · intro s h
    rfl
  · intro s t h hac hv
    unfold enough_votes_to_commit
    simp only [get_service_config]
    rw [hac, hv]

/-- Witness for C9: tampering with the recorded validator count of the
proposal record does not change the threshold verdict. -/
theorem c9_witness :
    enough_votes_to_commit stateB (cfgHash cfgB) =
      enough_votes_to_commit stateBTampered (cfgHash cfgB) :=
  c9_threshold_from_active_config.2 stateB stateBTampered (cfgHash cfgB) rfl (by decide)

/-- Claim C10: when no configuration is scheduled, the referenced proposal
exists, and the sender occupies an ordinal of the currently active
validator set at or beyond the proposal ledger length, the voting precheck
panics on the vote-slot lookup instead of returning a service error. -/
theorem c10_out_of_range_vote_slot_panics
    (v : VotingContext) (s : BCState) (p : Propose) (i : Nat)
    (hf : s.core.following = none)
    (hp : proposeOf s v.cfg_hash = some p)
    (hv : validator_index s v.author = some i)
    (hlen : (votesByConfigHash s v.cfg_hash).length ≤ i) :
    v.precheck s = .panic ("Cant get vote for precheck") := by
  unfold VotingContext.precheck
  rw [hf]
  simp only []
  rw [hp]
  simp only []
  rw [hv]
  simp only []
  rw [List.getElem?_eq_none hlen]

/-- Witness for C10: validator 2, added to the active set after the
one-slot `cfgT` proposal was submitted, occupies ordinal 1 while the
ledger has length 1, and the precheck panics. -/
theorem c10_witness :
    VotingContext.precheck ⟨.Yea 7, 2, cfgHash cfgT⟩ stateGrown =
      .panic ("Cant get vote for precheck") :=
  c10_out_of_range_vote_slot_panics ⟨.Yea 7, 2, cfgHash cfgT⟩ stateGrown pT 1
    rfl (by decide) (by decide) (by decide)

/-- Continuation-passing form of the structural candidate checks, used to
relate the claimed check order to `check_config_candidate`. -/
theorem check_split (candidate : StoredConfiguration) (s : BCState)
    {α : Type} (k : Except ServiceError α) :
    (if candidate.previous_cfg_hash ≠ cfgHash s.core.actual then
        Except.error (ServiceError.InvalidConfigRef s.core.actual)
      else if candidate.actual_from ≤ s.core.height + 1 then
        Except.error (ServiceError.ActivationInPast (s.core.height + 1))
      else
        match candidate.services_majority_count with
        | some M =>
          if M < byzantine_majority_count candidate.validator_keys.length ∨
              M > candidate.validator_keys.length then
            Except.error (ServiceError.InvalidMajorityCount
              (byzantine_majority_count candidate.validator_keys.length)
              candidate.validator_keys.length M)
          else k
        | none => k) =
      (match check_config_candidate candidate s with
        | .error e => Except.error e
        | .ok _ => k) := by
  unfold check_config_candidate
  by_cases h1 : candidate.previous_cfg_hash ≠ cfgHash s.core.actual
  · rw [if_pos h1, if_pos h1]
  · rw [if_neg h1, if_neg h1]
    simp only []
    by_cases h2 : candidate.actual_from ≤ s.core.height + 1
    · rw [if_pos h2, if_pos h2]
    · rw [if_neg h2, if_neg h2]
      simp only [get_service_config]
      cases hm : candidate.services_majority_count with
      | none => rfl
      | some M =>
        simp only []
        by_cases h3 : M < byzantine_majority_count candidate.validator_keys.length ∨
            M > candidate.validator_keys.length
        · rw [if_pos h3, if_pos h3]
        · rw [if_neg h3, if_neg h3]

/-- Reference cascade for the Propose precheck, written from the claim:
seven precondition checks evaluated in the stated order against the
snapshot, first failure winning. -/
def specProposeCascade (p : Propose) (s : BCState) (author : PublicKey) :
    Except ServiceError (StoredConfiguration × Hash) :=
  match s.core.following with
  | some pending => .error (.AlreadyScheduled pending)
  | none =>
    match validator_index s author with
    | none => .error .UnknownSender
    | some _ =>
      match tryDeserialize p.cfg with
      | .error parseErr => .error (.InvalidConfig parseErr)
      | .ok candidate =>
        if candidate.previous_cfg_hash ≠ cfgHash s.core.actual then
          .error (.InvalidConfigRef s.core.actual)
        else if candidate.actual_from ≤ s.core.height + 1 then
          .error (.ActivationInPast (s.core.height + 1))
        else
          match candidate.services_majority_count with
          | some M =>
            if M < byzantine_majority_count candidate.validator_keys.length ∨
                M > candidate.validator_keys.length then
              .error (.InvalidMajorityCount
                (byzantine_majority_count candidate.validator_keys.length)
                candidate.validator_keys.length M)
            else
              match proposeOf s (cfgHash candidate) with
              | some existing => .error (.AlreadyProposed existing)
              | none => .ok (candidate, cfgHash candidate)
          | none =>
            match proposeOf s (cfgHash candidate) with
            | some existing => .error (.AlreadyProposed existing)
            | none => .ok (candidate, cfgHash candidate)

/-- Claim C3: the Propose precheck equals the claimed seven-step cascade. -/
theorem c3_propose_precheck_order (p : Propose) (s : BCState) (author : PublicKey) :
    p.precheck s author = specProposeCascade p s author := by
  unfold Propose.precheck specProposeCascade
  cases hf : s.core.following with
  | some f => rfl
  | none =>
    simp only []
    cases hv : validator_index s author with
    | none => rfl
    | some i =>
      simp only [Option.isNone_some, Bool.false_eq_true, if_false]
      cases hd : tryDeserialize p.cfg with
      | error e => rfl
      | ok candidate =>
        simp only []
        exact (check_split candidate s _).symm

/-- Reference cascade for the voting precheck, written from the amended
claim: AlreadyScheduled, then UnknownConfigRef, then UnknownSender — the
sender mapped to an ordinal of the currently active validator set — then
the slot lookup (panicking when the ordinal falls outside the ledger),
then AlreadyVoted, then structural re-validation. -/
def specVoteCascade (v : VotingContext) (s : BCState) : CheckResult :=
  match s.core.following with
  | some pending => .err (.AlreadyScheduled pending)
  | none =>
    match proposeOf s v.cfg_hash with
    | none => .err (.UnknownConfigRef v.cfg_hash)
    | some propose =>
      match validator_index s v.author with
      | none => .err .UnknownSender
      | some ordinal =>
        match (votesByConfigHash s v.cfg_hash)[ordinal]? with
        | none => .panic ("Cant get vote for precheck")
        | some slot =>
          if slot.isSome then .err .AlreadyVoted
          else
            match tryDeserialize propose.cfg with
            | .error _ => .panic ("stored propose does not deserialize")
            | .ok parsed =>
              match check_config_candidate parsed s with
              | .error e => .err e
              | .ok _ => .ok parsed

/-- Claim C4 (as settled): the voting precheck equals the claimed cascade, with the
sender mapped through the currently active validator set. -/
theorem c4_vote_precheck_order (v : VotingContext) (s : BCState) :
    v.precheck s = specVoteCascade v s := by
  unfold VotingContext.precheck specVoteCascade
  cases hf : s.core.following with
  | some f => rfl
  | none =>
    simp only []
    cases hp : proposeOf s v.cfg_hash with
    | none => rfl
    | some propose =>
      simp only []
      cases hv : validator_index s v.author with
      | none => rfl
      | some ordinal => rfl

/-- Counterexample for C4 as stated: in `stateGrown` the sender key 2 has
no ordinal in the validator set recorded for the `cfgT` proposal (the
one-member set of `cfgS`), no configuration is scheduled and the proposal
exists, yet the precheck does not return UnknownSender — it panics,
because the sender is looked up in the currently active two-member set. -/
theorem c4_counterexample :
    stateGrown.core.following = none ∧
    proposeOf stateGrown (cfgHash cfgT) = some pT ∧
    (∀ k ∈ cfgS.validator_keys, k.service_key ≠ 2) ∧
    VotingContext.precheck ⟨.Yea 7, 2, cfgHash cfgT⟩ stateGrown ≠
      .err .UnknownSender :=
  ⟨rfl, by decide, by decide, by decide⟩

/-- Claim C5: once the scheduling, proposal-existence, sender and fresh-slot
checks pass, the voting precheck outcome is exactly the outcome of
re-validating the stored candidate with `check_config_candidate` — the
same structural checks and error kinds as at submission; in particular,
when the active configuration hash no longer equals the stored
declared predecessor hash, the vote fails with InvalidConfigRef even
though the proposal record still exists. -/
theorem c5_vote_revalidation
    (v : VotingContext) (s : BCState) (propose : Propose) (i : Nat)
    (parsed : StoredConfiguration)
    (hf : s.core.following = none)
    (hp : proposeOf s v.cfg_hash = some propose)
    (hv : validator_index s v.author = some i)
    (hs : (votesByConfigHash s v.cfg_hash)[i]? = some none)
    (hd : tryDeserialize propose.cfg = .ok parsed) :
    (v.precheck s = match check_config_candidate parsed s with
      | .error e => .err e
      | .ok _ => .ok parsed) ∧
    (parsed.previous_cfg_hash ≠ cfgHash s.core.actual →
      v.precheck s = .err (.InvalidConfigRef s.core.actual)) := by
  have hmain : v.precheck s = match check_config_candidate parsed s with
      | .error e => .err e
      | .ok _ => .ok parsed := by
    unfold VotingContext.precheck
    rw [hf]
    simp only []
    rw [hp]
    simp only []
    rw [hv]
    simp only []
    rw [hs]
    simp only [Option.isSome_none, Bool.false_eq_true, if_false]
    rw [hd]
  refine ⟨hmain, ?_⟩
  intro hne
  rw [hmain]
  unfold check_config_candidate
  rw [if_pos hne]

/-- Witness for C5: after the active configuration advanced to `cfgA2`,
a fresh vote by validator 1 on the still-stored `cfgB` proposal fails with
InvalidConfigRef carrying the new active configuration. -/
theorem c5_witness :
    VotingContext.precheck ⟨.Yea 7, 1, cfgHash cfgB⟩ stateStale =
      .err (.InvalidConfigRef cfgA2) :=
  (c5_vote_revalidation ⟨.Yea 7, 1, cfgHash cfgB⟩ stateStale pB 0 cfgB
    rfl (by decide) (by decide) (by decide) rfl).2 (by decide)

/-- Claim C6: a successful Propose mutates the fork by exactly creating the vote
ledger for the configuration hash — one empty slot per validator of the
currently active (predecessor) configuration — storing the proposal record
binding the transaction, the ledger merkle root and that validator count,
and appending the configuration hash to the ordinal index; the core state,
including the scheduled configuration, is untouched.  The hypotheses state
that the payload parses to `cfg`, that the registry holds the active
configuration under its own hash, and that no stray ledger exists for the
new hash. -/
theorem c6_propose_success_effects
    (p : Propose) (author : PublicKey) (s s2 : BCState) (cfg : StoredConfiguration)
    (hd : tryDeserialize p.cfg = .ok cfg)
    (hreg : configsGet s (cfgHash s.core.actual) = some s.core.actual)
    (hempty : votesByConfigHash s (cfgHash cfg) = [])
    (hex : p.execute author s = .ok s2) :
    s2 = ⟨s.core,
      ⟨alPut s.service.propose_data (cfgHash cfg)
          ⟨p, merkleRoot (List.replicate s.core.actual.validator_keys.length none),
            s.core.actual.validator_keys.length⟩,
        alPut s.service.votes (cfgHash cfg)
          (List.replicate s.core.actual.validator_keys.length none),
        s.service.config_hash_ordinal ++ [cfgHash cfg]⟩⟩ := by
  unfold Propose.execute at hex
  cases hpc : p.precheck s author with
  | error e => rw [hpc] at hex; simp at hex
  | ok pair =>
    obtain ⟨cfg2, ch⟩ := pair
    rw [hpc] at hex
    simp only [] at hex
    obtain ⟨hf, hv, hd2, hchk, hch, hnp⟩ := propose_precheck_ok_elim hpc
    rw [hd] at hd2
    injection hd2 with hcfg2
    subst hcfg2
    subst hch
    cases hsv : p.save s cfg (cfgHash cfg) with
    | error m => rw [hsv] at hex; simp at hex
    | ok s1 =>
      rw [hsv] at hex
      simp only [ExecResult.ok.injEq] at hex
      obtain ⟨prev_cfg, hg, hs1⟩ := propose_save_ok_elim hsv
      have hprev : cfg.previous_cfg_hash = cfgHash s.core.actual :=
        check_config_candidate_ok_prev hchk
      rw [hprev, hreg] at hg
      injection hg with hg2
      subst hg2
      rw [hempty] at hs1
      rw [← hex, hs1]
      simp only [List.nil_append]

/-- Witness for C6: proposing `cfgB` on `stateA` yields exactly the state
with the four-slot empty ledger, the proposal record, and the appended
ordinal entry. -/
theorem c6_witness :
    stateB = ⟨stateA.core,
      ⟨alPut stateA.service.propose_data (cfgHash cfgB)
          ⟨pB, merkleRoot (List.replicate stateA.core.actual.validator_keys.length none),
            stateA.core.actual.validator_keys.length⟩,
        alPut stateA.service.votes (cfgHash cfgB)
          (List.replicate stateA.core.actual.validator_keys.length none),
        stateA.service.config_hash_ordinal ++ [cfgHash cfgB]⟩⟩ :=
  c6_propose_success_effects pB 1 stateA stateB cfgB rfl (by decide) rfl (by decide)

/-- Dissection of a successful Propose execution. -/
theorem propose_execute_ok_elim {p : Propose} {a : Nat} {s s2 : BCState}
    (h : p.execute a s = .ok s2) :
    ∃ cfg prev_cfg,
      p.precheck s a = .ok (cfg, cfgHash cfg) ∧
      configsGet s cfg.previous_cfg_hash = some prev_cfg ∧
      s2 = ⟨s.core,
        ⟨alPut s.service.propose_data (cfgHash cfg)
            ⟨p, merkleRoot (votesByConfigHash s (cfgHash cfg) ++
              List.replicate prev_cfg.validator_keys.length none),
              prev_cfg.validator_keys.length⟩,
          alPut s.service.votes (cfgHash cfg)
            (votesByConfigHash s (cfgHash cfg) ++
              List.replicate prev_cfg.validator_keys.length none),
          s.service.config_hash_ordinal ++ [cfgHash cfg]⟩⟩ := by
  unfold Propose.execute at h
  cases hpc : p.precheck s a with
  | error e => rw [hpc] at h; simp at h
  | ok pair =>
    obtain ⟨cfg, ch⟩ := pair
    rw [hpc] at h
    simp only [] at h
    obtain ⟨-, -, -, -, hch, -⟩ := propose_precheck_ok_elim hpc
    subst hch
    cases hsv : p.save s cfg (cfgHash cfg) with
    | error m => rw [hsv] at h; simp at h
    | ok s1 =>
      rw [hsv] at h
      simp only [ExecResult.ok.injEq] at h
      obtain ⟨prev_cfg, hg, hs1⟩ := propose_save_ok_elim hsv
      exact ⟨cfg, prev_cfg, rfl, hg, by rw [← h, hs1]⟩

/-- Dissection of a successful Vote execution. -/
theorem vote_execute_ok_elim {v : Vote} {a th : Nat} {s s2 : BCState}
    (h : v.execute a th s = .ok s2) :
    ∃ s1 parsed,
      VotingContext.precheck ⟨.Yea th, a, v.cfg_hash⟩ s = .ok parsed ∧
      VotingContext.save ⟨.Yea th, a, v.cfg_hash⟩ s = .ok s1 ∧
      (enough_votes_to_commit s1 v.cfg_hash = true →
        s2 = commit_configuration s1 parsed) ∧
      (enough_votes_to_commit s1 v.cfg_hash = false → s2 = s1) := by
  unfold Vote.execute at h
  simp only [] at h
  cases hpc : VotingContext.precheck ⟨.Yea th, a, v.cfg_hash⟩ s with
  | err e => rw [hpc] at h; simp at h
  | panic m => rw [hpc] at h; simp at h
  | ok parsed =>
    rw [hpc] at h
    simp only [] at h
    cases hsv : VotingContext.save ⟨.Yea th, a, v.cfg_hash⟩ s with
    | error m => rw [hsv] at h; simp at h
    | ok s1 =>
      rw [hsv] at h
      simp only [] at h
      cases he : enough_votes_to_commit s1 v.cfg_hash with
      | true =>
        rw [he] at h
        simp only [if_true, ExecResult.ok.injEq] at h
        exact ⟨s1, parsed, rfl, rfl, fun _ => h.symm,
          fun hfalse => by rw [he] at hfalse; exact Bool.noConfusion hfalse⟩
      | false =>
        rw [he] at h
        simp only [Bool.false_eq_true, if_false, ExecResult.ok.injEq] at h
        exact ⟨s1, parsed, rfl, rfl,
          fun htrue => by rw [he] at htrue; exact Bool.noConfusion htrue, fun _ => h.symm⟩

/-- Dissection of a successful VoteAgainst execution. -/
theorem voteAgainst_execute_ok_elim {v : VoteAgainst} {a th : Nat} {s s2 : BCState}
    (h : v.execute a th s = .ok s2) :
    ∃ parsed,
      VotingContext.precheck ⟨.Nay th, a, v.cfg_hash⟩ s = .ok parsed ∧
      VotingContext.save ⟨.Nay th, a, v.cfg_hash⟩ s = .ok s2 := by
  unfold VoteAgainst.execute at h
  simp only [] at h
  cases hpc : VotingContext.precheck ⟨.Nay th, a, v.cfg_hash⟩ s with
  | err e => rw [hpc] at h; simp at h
  | panic m => rw [hpc] at h; simp at h
  | ok parsed =>
    rw [hpc] at h
    simp only [] at h
    cases hsv : VotingContext.save ⟨.Nay th, a, v.cfg_hash⟩ s with
    | error m => rw [hsv] at h; simp at h
    | ok s1 =>
      rw [hsv] at h
      simp only [ExecResult.ok.injEq] at h
      exact ⟨parsed, rfl, by rw [← h]⟩

/-- Claimed invariant: the vote ledger of every stored proposal record has
exactly as many slots as the validator count recorded in the record. -/
def ledgerLenInv (s : BCState) : Prop :=
  ∀ h pd, alGet s.service.propose_data h = some pd →
    (votesByConfigHash s h).length = pd.num_validators

/-- Auxiliary invariant: a configuration hash with no proposal record has
no vote ledger. -/
def noOrphanLedger (s : BCState) : Prop :=
  ∀ h, alGet s.service.propose_data h = none → votesByConfigHash s h = []

theorem proposeOf_none_iff {s : BCState} {h : Hash} :
    proposeOf s h = none ↔ alGet s.service.propose_data h = none := by
  unfold proposeOf
  cases alGet s.service.propose_data h <;> simp

/-- A recorded vote preserves both ledger invariants. -/
theorem save_preserves_invariants {v : VotingContext} {s s1 : BCState}
    (hinv : ledgerLenInv s) (horph : noOrphanLedger s)
    (hsv : v.save s = .ok s1) : ledgerLenInv s1 ∧ noOrphanLedger s1 := by
  obtain ⟨pd, parsed, prev_cfg, i, hget, hd, hc, hi, hlt, hs1⟩ :=
    voting_save_ok_elim hsv
  subst hs1
  constructor
  · intro h pd2 hpd2
    simp only [votesByConfigHash] at *
    by_cases hh : h = v.cfg_hash
    · subst hh
      rw [alGet_alPut_self] at hpd2
      injection hpd2 with hpd2
      subst hpd2
      simp only [alGet_alPut_self, Option.getD_some]
      rw [List.length_set]
      exact hinv v.cfg_hash pd hget
    · rw [alGet_alPut_ne _ _ _ _ hh] at hpd2
      simp only [alGet_alPut_ne _ _ _ _ hh]
      exact hinv h pd2 hpd2
  · intro h hpd2
    simp only [votesByConfigHash] at *
    by_cases hh : h = v.cfg_hash
    · subst hh
      rw [alGet_alPut_self] at hpd2
      exact absurd hpd2 (by simp)
    · rw [alGet_alPut_ne _ _ _ _ hh] at hpd2
      simp only [alGet_alPut_ne _ _ _ _ hh]
      exact horph h hpd2

/-- A successful proposal preserves both ledger invariants. -/
theorem propose_preserves_invariants {p : Propose} {a : Nat} {s s2 : BCState}
    (hinv : ledgerLenInv s) (horph : noOrphanLedger s)
    (h : p.execute a s = .ok s2) : ledgerLenInv s2 ∧ noOrphanLedger s2 := by
  obtain ⟨cfg, prev_cfg, hpc, hg, hs2⟩ := propose_execute_ok_elim h
  obtain ⟨-, -, -, -, -, hnp⟩ := propose_precheck_ok_elim hpc
  have hnone : alGet s.service.propose_data (cfgHash cfg) = none :=
    proposeOf_none_iff.mp hnp
  have hempty : votesByConfigHash s (cfgHash cfg) = [] := horph _ hnone
  rw [hempty] at hs2
  subst hs2
  constructor
  · intro h2 pd2 hpd2
    simp only [votesByConfigHash] at *
    by_cases hh : h2 = cfgHash cfg
    · subst hh
      rw [alGet_alPut_self] at hpd2
      injection hpd2 with hpd2
      subst hpd2
      simp only [alGet_alPut_self, Option.getD_some, List.nil_append]
      exact List.length_replicate _ _
    · rw [alGet_alPut_ne _ _ _ _ hh] at hpd2
      simp only [alGet_alPut_ne _ _ _ _ hh]
      exact hinv h2 pd2 hpd2
  · intro h2 hpd2
    simp only [votesByConfigHash] at *
    by_cases hh : h2 = cfgHash cfg
    · subst hh
      rw [alGet_alPut_self] at hpd2
      exact absurd hpd2 (by simp)
    · rw [alGet_alPut_ne _ _ _ _ hh] at hpd2
      simp only [alGet_alPut_ne _ _ _ _ hh]
      exact horph h2 hpd2

/-- Claim C8: both ledger invariants — the vote ledger
length equals the validator count recorded in its proposal record, and no
ledger exists without a record — are preserved by every Propose, Vote and
VoteAgainst execution, whether it succeeds or returns an error. -/
theorem c8_ledger_length_invariant
    (tx : ConfigurationTransactions) (author txHash : Nat) (s : BCState)
    (hinv : ledgerLenInv s) (horph : noOrphanLedger s) :
    (∀ s2, executeTx tx author txHash s = .ok s2 →
      ledgerLenInv s2 ∧ noOrphanLedger s2) ∧
    (∀ e s2, executeTx tx author txHash s = .err e s2 →
      ledgerLenInv s2 ∧ noOrphanLedger s2) := by
  constructor
  · intro s2 hex
    cases tx with
    | propose p => exact propose_preserves_invariants hinv horph hex
    | vote v =>
      obtain ⟨s1, parsed, hpc, hsv, htrue, hfalse⟩ := vote_execute_ok_elim hex
      have hpres := save_preserves_invariants hinv horph hsv
      cases he : enough_votes_to_commit s1 v.cfg_hash with
      | true => rw [htrue he]; exact hpres
      | false => rw [hfalse he]; exact hpres
    | voteAgainst v =>
      obtain ⟨parsed, hpc, hsv⟩ := voteAgainst_execute_ok_elim hex
      exact save_preserves_invariants hinv horph hsv
  · intro e s2 hex
    rw [executeTx_err_eq hex]
    exact ⟨hinv, horph⟩

theorem alGet_singleton {α : Type} (k : Hash) (v : α) (h : Hash) :
    alGet [(k, v)] h = if k == h then some v else none := by
  cases hb : (k == h) <;> simp [alGet, List.find?, hb]

/-- The ledger invariants for a state holding a single proposal. -/
theorem singleton_invariants (core : CoreState) (k : Hash) (pd : ProposeData)
    (l : List MaybeVote) (ord : List Hash) (hlen : l.length = pd.num_validators) :
    ledgerLenInv ⟨core, ⟨[(k, pd)], [(k, l)], ord⟩⟩ ∧
    noOrphanLedger ⟨core, ⟨[(k, pd)], [(k, l)], ord⟩⟩ := by
  constructor
  · intro h pd2 hpd2
    simp only [alGet_singleton] at hpd2
    simp only [votesByConfigHash, alGet_singleton]
    by_cases hh : (k == h) = true
    · rw [if_pos hh] at hpd2
      injection hpd2 with h2
      subst h2
      rw [if_pos hh]
      exact hlen
    · rw [if_neg hh] at hpd2
      exact absurd hpd2 (by simp)
  · intro h hpd2
    simp only [alGet_singleton] at hpd2
    simp only [votesByConfigHash, alGet_singleton]
    by_cases hh : (k == h) = true
    · rw [if_pos hh] at hpd2
      exact absurd hpd2 (by simp)
    · rw [if_neg hh]
      rfl

/-- Ledger of the `cfgB` proposal after validator 2 voted yes. -/
def votesW : List MaybeVote := [none, some (.Yea 77), none, none]

/-- State after validator 2 voted yes on the `cfgB` proposal. -/
def stateBVoted : BCState :=
  ⟨stateB.core,
   ⟨[(cfgHash cfgB, ⟨pB, merkleRoot votesW, 4⟩)],
    [(cfgHash cfgB, votesW)], [cfgHash cfgB]⟩⟩

/-- Witness for C8: the invariants hold after the vote of validator 2 on the
freshly proposed `cfgB`. -/
theorem c8_witness : ledgerLenInv stateBVoted ∧ noOrphanLedger stateBVoted :=
  (c8_ledger_length_invariant (.vote ⟨cfgHash cfgB⟩) 2 77 stateB
    (singleton_invariants stateB.core (cfgHash cfgB)
      ⟨pB, merkleRoot (List.replicate 4 none), 4⟩ (List.replicate 4 none)
      [cfgHash cfgB] (by decide)).1
    (singleton_invariants stateB.core (cfgHash cfgB)
      ⟨pB, merkleRoot (List.replicate 4 none), 4⟩ (List.replicate 4 none)
      [cfgHash cfgB] (by decide)).2).1 stateBVoted (by decide)

/-- Claim C1: a configuration becomes scheduled during transaction execution if
and only if the transaction is a Vote whose precheck succeeded (execution
reached the apply phase) and whose post-apply count of affirmative slots
for the referenced proposal reaches the majority threshold; Propose and
VoteAgainst executions never schedule, and an erroring execution leaves
the scheduled configuration unchanged. -/
theorem c1_scheduling_characterization
    (tx : ConfigurationTransactions) (author txHash : Nat) (s : BCState) :
    (∀ s2, executeTx tx author txHash s = .ok s2 →
      (s2.core.following.isSome = true ↔
        ∃ ch, tx = .vote ⟨ch⟩ ∧ enough_votes_to_commit s2 ch = true)) ∧
    (∀ e s2, executeTx tx author txHash s = .err e s2 →
      s2.core.following = s.core.following) := by
  constructor
  · intro s2 hex
    cases tx with
    | propose p =>
      obtain ⟨cfg, prev_cfg, hpc, hg, hs2⟩ := propose_execute_ok_elim hex
      obtain ⟨hf, -, -, -, -, -⟩ := propose_precheck_ok_elim hpc
      constructor
      · intro habs
        rw [hs2] at habs
        simp only [] at habs
        rw [hf] at habs
        exact absurd habs (by simp)
      · rintro ⟨ch, hchq, -⟩
        exact ConfigurationTransactions.noConfusion hchq
    | vote v =>
      obtain ⟨s1, parsed, hpc, hsv, htrue, hfalse⟩ := vote_execute_ok_elim hex
      have hf : s.core.following = none := (voting_precheck_ok_elim hpc).1
      obtain ⟨pd, parsed2, prev_cfg, i, -, -, -, -, -, hs1⟩ :=
        voting_save_ok_elim hsv
      cases he : enough_votes_to_commit s1 v.cfg_hash with
      | true =>
        rw [htrue he]
        constructor
        · intro _
          exact ⟨v.cfg_hash, by cases v; rfl, he⟩
        · intro _
          rfl
      | false =>
        rw [hfalse he]
        constructor
        · intro habs
          rw [hs1] at habs
          simp only [] at habs
          rw [hf] at habs
          exact absurd habs (by simp)
        · rintro ⟨ch, hchq, henough⟩
          injection hchq with hv
          have hch : v.cfg_hash = ch := by rw [hv]
          rw [hch] at he
          rw [he] at henough
          exact Bool.noConfusion henough
    | voteAgainst v =>
      obtain ⟨parsed, hpc, hsv⟩ := voteAgainst_execute_ok_elim hex
      have hf : s.core.following = none := (voting_precheck_ok_elim hpc).1
      obtain ⟨pd, parsed2, prev_cfg, i, -, -, -, -, -, hs2⟩ :=
        voting_save_ok_elim hsv
      constructor
      · intro habs
        rw [hs2] at habs
        simp only [] at habs
        rw [hf] at habs
        exact absurd habs (by simp)
      · rintro ⟨ch, hchq, -⟩
        exact ConfigurationTransactions.noConfusion hchq
  · intro e s2 hex
    rw [executeTx_err_eq hex]

/-- Witness for C1: the third affirmative vote on the `cfgB` proposal
reaches the majority of 3 and the resulting state reports a scheduled
configuration, in accordance with the characterization. -/
theorem c1_witness :
    stateV3.core.following.isSome = true ↔
      ∃ ch, (ConfigurationTransactions.vote ⟨cfgHash cfgB⟩) =
          ConfigurationTransactions.vote ⟨ch⟩ ∧
        enough_votes_to_commit stateV3 ch = true :=
  (c1_scheduling_characterization (.vote ⟨cfgHash cfgB⟩) 3 99 stateV2).1 stateV3
    (by decide)
